import Mathlib

/-
Formal model of the capstone21 repository (Triton inference client helpers).

The repository consists of three Python source files:
  * python_backend/utils.py                       (drawing and path bookkeeping)
  * python_backend/models/lprnet/lpr_client.py    (LPRNet batching client)
  * python_backend/triton_client/model_client/bodyposenet_model_class.py

Each Lean definition below is a shallow embedding of one Python function,
translated directly from the source.  Filesystem state is modelled as the
list of existing entries; network calls are modelled by their observable
outcomes, which are passed in as explicit inputs.
-/

set_option autoImplicit false

namespace Capstone

/-! ## Generic helpers shared by the embeddings -/

/-- Lookup in an association list, first match wins (Python dict access). -/
def lookupKV {α : Type} : List (String × α) → String → Option α
  | [], _ => none
  | kv :: d, k => if kv.1 = k then some kv.2 else lookupKV d k

/-- ASCII lowering of a string, modelling Python str.lower on the ASCII
inputs used by this code base. -/
def lowerStr (s : String) : String :=
  String.mk (s.data.map Char.toLower)

/-! ## bodyposenet_model_class.py -/

/-- Observable outcome of the requests.get call inside
BodyPoseNetClass.status: the GET either raises ConnectionError, raises
some other exception (for example a timeout or a TypeError from an unset
API_URL), or returns an HTTP response carrying a status code. -/
inductive GetResult : Type
  | connectionError : GetResult
  | otherException : GetResult
  | response (status_code : Nat) : GetResult
deriving DecidableEq

/-- Dictionary returned by BodyPoseNetClass.status. -/
structure StatusDict where
  HTTPStatus : Nat
  status : String
deriving DecidableEq

/-- Model of BodyPoseNetClass.status (bodyposenet_model_class.py lines
24 to 34).  The try block catches exactly ConnectionError and returns the
Inactive dictionary; when the GET returns, the else clause returns the
Active dictionary without inspecting the status code; any other exception
propagates out of the method, modelled as Except.error. -/
def bodyposenet_status (g : GetResult) : Except Unit StatusDict :=
  match g with
  | GetResult.connectionError => Except.ok ⟨503, "Inactive"⟩
  | GetResult.otherException => Except.error ()
  | GetResult.response _ => Except.ok ⟨200, "Active"⟩

/-- Result of BodyPoseNetClass.predict: either the inference output of
the private _predict method, or the error dictionary. -/
inductive BpResult (α : Type) : Type
  | inference (r : α) : BpResult α
  | errorDict (httpStatus : Nat) (error : String) : BpResult α
deriving DecidableEq

/-- Outcome of BodyPoseNetClass.predict together with a flag recording
whether the private _predict method (the inference path) was invoked. -/
structure BpPredictOutcome (α : Type) where
  ranInference : Bool
  result : BpResult α
deriving DecidableEq

/-- Model of os.path.exists: membership in the list of existing paths. -/
def pathExists (fs : List String) (p : String) : Bool :=
  decide (p ∈ fs)

/-- Model of BodyPoseNetClass.predict (bodyposenet_model_class.py lines
36 to 52).  The inference computation performed by _predict is passed in
as the function f. -/
def bodyposenet_predict_dispatch {α : Type} (fs : List String) (file_path : String)
    (f : String → α) : BpPredictOutcome α :=
  if pathExists fs file_path then
    ⟨true, BpResult.inference (f file_path)⟩
  else
    ⟨false, BpResult.errorDict 400 "File Path does not exist!"⟩

/-! ## lpr_client.py : frame collection (lines 168 to 186) -/

/-- One entry of os.listdir together with the os.path.isfile result for
the joined path. -/
structure DirEntry where
  name : String
  isFile : Bool
deriving DecidableEq

/-- Suffix of a character list starting at its last dot; empty when the
list holds no dot.  Helper for the os.path.splitext model. -/
def fromLastDot : List Char → List Char
  | [] => []
  | c :: cs =>
    if cs.contains '.' then fromLastDot cs
    else if c = '.' then c :: cs else fromLastDot cs

/-- Extension of a file name as computed by os.path.splitext for names
without path separators: leading dots belong to the base name, and the
extension starts at the last remaining dot, when one exists. -/
def pyextList (cs : List Char) : List Char :=
  let rest := cs.dropWhile (fun c => c == '.')
  if rest.contains '.' then fromLastDot rest else []

/-- String version of pyextList: os.path.splitext f gives (root, pyext f). -/
def pyext (f : String) : String :=
  String.mk (pyextList f.data)

/-- The filter of the frame-building list comprehension in lpr_predict
(lpr_client.py lines 176 to 178): keep entries that are regular files
whose splitext extension is .jpg, .jpeg or .png. -/
def lprFrameFilter (e : DirEntry) : Bool :=
  e.isFile && decide (pyext e.name ∈ ([".jpg", ".jpeg", ".png"] : List String))

/-- Frames built by lpr_predict (lpr_client.py lines 168 to 186),
represented by the image paths handed to the Frame constructor.  When
image_filename is a directory, one frame per filtered listing entry,
joined with the directory path; otherwise a single frame for the path
itself. -/
def lprFrames (isDir : Bool) (entries : List DirEntry) (image_filename : String) : List String :=
  if isDir then
    (entries.filter lprFrameFilter).map (fun e => image_filename ++ "/" ++ e.name)
  else
    [image_filename]

/-! ## lpr_client.py : the batching loop (lines 188 to 288)

The while loop assembles batches of batch_size frame indices, starting
over from frame 0 when the frame list is exhausted, and stops after the
batch during which image_idx wrapped around to 0. -/

/-- The inner for loop over range batch_size (lpr_client.py lines 222 to
232).  Given the current image_idx and the remaining iteration count, it
returns the list of frame indices consumed, the final image_idx and the
final last_request flag.  n is len frames. -/
def innerFor (n : Nat) : Nat → Nat → List Nat × Nat × Bool
  | idx, 0 => ([], idx, false)
  | idx, b + 1 =>
    let idx2 := (idx + 1) % n
    let r := innerFor n idx2 b
    (idx :: r.1, r.2.1, (idx2 == 0) || r.2.2)

/-- The outer while loop (lpr_client.py lines 218 to 288), fuelled: each
step builds one batch and stops when last_request became true.  Fuel n is
always sufficient for positive n and b (proved below). -/
def outerLoop (n b : Nat) : Nat → Nat → List (List Nat)
  | 0, _ => []
  | fuel + 1, idx =>
    let r := innerFor n idx b
    if r.2.2 then [r.1] else r.1 :: outerLoop n b fuel r.2.1

/-- Frame-index batches assembled by lpr_predict for n frames and batch
size b, starting from image_idx = 0 and last_request = False. -/
def lprBatchLoop (n b : Nat) : List (List Nat) :=
  outerLoop n b n 0

/-- The tensor actually placed in the inference request (lpr_client.py
lines 234 to 237): the stack of the whole batch when the model config has
max_batch_size greater than 0, and only the first preprocessed image
otherwise. -/
def requestPayload {α : Type} (max_batch_size : Int) (batch : List α) : List α :=
  if 0 < max_batch_size then batch else batch.take 1

/-! ## lpr_client.py : client interaction order (lines 124 to 288) -/

/-- One interaction of lpr_predict with the Triton server, in program
order: client construction, the two metadata calls, then one inference
request per assembled batch. -/
inductive ClientAction : Type
  | createClient (protocol : String) : ClientAction
  | getModelMetadata : ClientAction
  | getModelConfig : ClientAction
  | inferRequest (payload : List Nat) : ClientAction
deriving DecidableEq

/-- The FLAGS fields of lpr_predict that the control flow up to the send
loop inspects. -/
structure LprFlags where
  verbose : Bool
  streaming : Bool
  async_set : Bool
  protocol : String
deriving DecidableEq

/-- The sequence of server interactions attempted by lpr_predict (when
each call succeeds), paired with the message of the exception raised
before any interaction, if any.  The streaming check at lpr_client.py
lines 124 to 125 runs before the client is created; afterwards the
client is constructed, model metadata and config are fetched, and one
request is sent per batch of the loop. -/
def lpr_client_trace (fl : LprFlags) (nFrames batchSize : Nat) (maxBatchSize : Int) :
    List ClientAction × Option String :=
  if fl.streaming ∧ lowerStr fl.protocol ≠ "grpc" then
    ([], some "Streaming is only allowed with gRPC protocol")
  else
    (ClientAction.createClient (lowerStr fl.protocol) ::
      ClientAction.getModelMetadata ::
      ClientAction.getModelConfig ::
      (lprBatchLoop nFrames batchSize).map
        (fun batch => ClientAction.inferRequest (requestPayload maxBatchSize batch)),
      none)

/-! ## lpr_client.py : final response assembly (lines 345 to 351) -/

/-- Values stored in the per-image response dictionaries of lpr_predict. -/
inductive JVal : Type
  | nat (n : Nat) : JVal
  | str (s : String) : JVal
  | scores (l : List Rat) : JVal
deriving DecidableEq

/-- The dictionary built for one image (lpr_client.py lines 345 to 351):
status 200 when the recognised license plate is non-empty, 204 otherwise,
with the same remaining fields in both branches. -/
def final_image_response (license_plate : String) (confidence_scores : List Rat)
    (file_name : String) : List (String × JVal) :=
  if license_plate.length ≠ 0 then
    [("HTTPStatus", JVal.nat 200), ("file_name", JVal.str file_name),
     ("license_plate", JVal.str license_plate),
     ("confidence_scores", JVal.scores confidence_scores)]
  else
    [("HTTPStatus", JVal.nat 204), ("file_name", JVal.str file_name),
     ("license_plate", JVal.str license_plate),
     ("confidence_scores", JVal.scores confidence_scores)]

/-- The final_response list returned by lpr_predict, collected over all
processed batches; each batch result is a triple of license plate,
confidence scores and file name, in the order produced by the
postprocessor. -/
def lpr_final_response : List (List (String × List Rat × String)) → List (List (String × JVal))
  | [] => []
  | batch :: rest =>
    batch.map (fun t => final_image_response t.1 t.2.1 t.2.2) ++ lpr_final_response rest

/-- Key list of a response dictionary. -/
def keysOf (r : List (String × JVal)) : List String :=
  r.map (fun kv => kv.1)

/-! ## utils.py : render_image (lines 9 to 23) -/

/-- A bounding box as the four-element list used by utils.py. -/
structure RBox where
  x1 : Int
  y1 : Int
  x2 : Int
  y2 : Int
deriving DecidableEq

/-- A drawing operation performed on the PIL image. -/
inductive ROp : Type
  | rect (box : RBox) (outline : String) : ROp
deriving DecidableEq

/-- Substring test on character lists (Python in operator on strings). -/
def containsSub (hay pat : List Char) : Bool :=
  match hay with
  | [] => pat.isEmpty
  | _ :: t => pat.isPrefixOf hay || containsSub t pat

/-- The bbox lookup of utils.py line 14: first value whose key contains
bbox after lowercasing; none models the IndexError when no key matches. -/
def extractBox (info : List (String × RBox)) : Option RBox :=
  ((info.filter (fun kv => containsSub (lowerStr kv.1).data ("bbox").data)).map
    (fun kv => kv.2)).head?

/-- The clamped, thickened rectangle whose coordinates utils.py lines 18
to 21 compute for loop index i (and which the source then never draws). -/
def thickenedRect (imgW imgH : Int) (b : RBox) (i : Nat) : RBox :=
  ⟨max 0 (b.x1 - i), max 0 (b.y1 - i), min imgW (b.x2 + i), min imgH (b.y2 + i)⟩

/-- Model of render_image (utils.py lines 9 to 23) as the list of
rectangle draw operations applied to the opened image before it is saved
to output_image_file.  For each dictionary the bbox value is extracted
(IndexError, modelled as Except.error, when absent); boxes of negative
width or height are skipped; otherwise line 16 draws the box outline and
the loop of lines 17 to 22 draws draw.rectangle(box, outline) once per
iteration, after computing the clamped coordinates x1 y1 x2 y2 that it
does not use. -/
def render_image (imgW imgH : Int) (bboxes : List (List (String × RBox)))
    (outline_color : String) (linewidth : Nat) : Except Unit (List ROp) :=
  match bboxes with
  | [] => Except.ok []
  | info :: rest =>
    match extractBox info with
    | none => Except.error ()
    | some box =>
      match render_image imgW imgH rest outline_color linewidth with
      | Except.error e => Except.error e
      | Except.ok ops =>
        if box.x2 - box.x1 ≥ 0 ∧ box.y2 - box.y1 ≥ 0 then
          Except.ok ((ROp.rect box outline_color ::
            (List.range linewidth).map (fun _ => ROp.rect box outline_color)) ++ ops)
        else
          Except.ok ops

/-! ## utils.py : create_directories (lines 37 to 50) -/

/-- A path, as its list of components below the working directory. -/
abbrev DirPath := List String

/-- The filesystem state: the list of existing directories (the claims
analysed here only involve directory entries). -/
abbrev FileSys := List DirPath

/-- Model of os.path.isdir. -/
def isdir (fs : FileSys) (p : DirPath) : Bool :=
  decide (p ∈ fs)

/-- Model of os.mkdir: fails (FileExistsError) when the path exists,
fails (FileNotFoundError) when the parent is missing, otherwise adds the
directory.  The empty parent is the working directory. -/
def mkdir (fs : FileSys) (p : DirPath) : Except Unit FileSys :=
  if p ∈ fs then Except.error ()
  else if p.dropLast = ([] : DirPath) ∨ p.dropLast ∈ fs then Except.ok (fs ++ [p])
  else Except.error ()

/-- First if-block of create_directories (utils.py lines 39 to 42): when
triton_client/<model> is not a directory, create it together with its
input and output subdirectories. -/
def cdStep1 (fs : FileSys) (model : String) : Except Unit FileSys :=
  if isdir fs ["triton_client", model] then Except.ok fs
  else
    match mkdir fs ["triton_client", model] with
    | Except.error e => Except.error e
    | Except.ok fs1 =>
      match mkdir fs1 ["triton_client", model, "input"] with
      | Except.error e => Except.error e
      | Except.ok fs2 => mkdir fs2 ["triton_client", model, "output"]

/-- Second if-block of create_directories (utils.py lines 44 to 46):
when the input/<id> directory is missing, create it and its output
counterpart. -/
def cdStep2 (fs : FileSys) (model id : String) : Except Unit FileSys :=
  if isdir fs ["triton_client", model, "input", id] then Except.ok fs
  else
    match mkdir fs ["triton_client", model, "input", id] with
    | Except.error e => Except.error e
    | Except.ok fsB => mkdir fsB ["triton_client", model, "output", id]

/-- Third if-block of create_directories (utils.py lines 48 to 50):
when the input/<id>/<curr_time> directory is missing, create it and its
output counterpart. -/
def cdStep3 (fs : FileSys) (model id time : String) : Except Unit FileSys :=
  if isdir fs ["triton_client", model, "input", id, time] then Except.ok fs
  else
    match mkdir fs ["triton_client", model, "input", id, time] with
    | Except.error e => Except.error e
    | Except.ok fsD => mkdir fsD ["triton_client", model, "output", id, time]

/-- Model of create_directories (utils.py lines 37 to 50) acting on the
filesystem state: the three if-blocks run in order.  Path components
play the role of the f-string segments
triton_client/<model>/input/<id>/<curr_time>; exceptions from os.mkdir
propagate as Except.error. -/
def create_directories (fs : FileSys) (model id time : String) : Except Unit FileSys :=
  Except.bind (cdStep1 fs model) (fun fsA =>
    Except.bind (cdStep2 fsA model id) (fun fsC =>
      cdStep3 fsC model id time))

/-! ## utils.py : plot_keypoints (lines 52 to 107) -/

/-- A value stored in a BodyPoseNet person dictionary: a keypoint
coordinate pair or a scalar (the score and total entries). -/
inductive PVal : Type
  | pt (x y : Int) : PVal
  | num (n : Int) : PVal
deriving DecidableEq

/-- One person of results of image_filename, as produced by the
BodyPoseNet postprocessor: the keypoint entries in insertion order,
followed in the dictionary by the score and total entries. -/
structure Person4 where
  kps : List (String × Int × Int)
  score : Int
  total : Nat
deriving DecidableEq

/-- The items view of a person dictionary (list(person.items())):
the keypoint entries followed by score and total. -/
def personItems (p : Person4) : List (String × PVal) :=
  p.kps.map (fun t => (t.1, PVal.pt t.2.1 t.2.2)) ++
    [("score", PVal.num p.score), ("total", PVal.num (Int.ofNat p.total))]

/-- The keys of a person dictionary, used by the in tests of the limb
loop. -/
def personKeys (p : Person4) : List String :=
  (personItems p).map (fun kv => kv.1)

/-- A drawing operation of plot_keypoints: a keypoint circle recording
the dictionary value it was centred on and its colour index, or a limb
polygon recording the skeleton edge index it was filled for. -/
inductive DrawOp : Type
  | circle (v : PVal) (colorIdx : Nat) : DrawOp
  | limb (edgeIdx : Nat) : DrawOp
deriving DecidableEq

/-- Circle operations of the first loop of plot_keypoints (utils.py
lines 76 to 82): for each person, one circle for each of the first
total - 2 items of the dictionary. -/
def circleOpsP (p : Person4) : List DrawOp :=
  (((personItems p).take (p.total - 2)).enum).map (fun iv => DrawOp.circle iv.2.2 iv.1)

/-- Circle operations over all persons. -/
def circleOps : List Person4 → List DrawOp
  | [] => []
  | p :: ps => circleOpsP p ++ circleOps ps

/-- Limb operations of the second loop of plot_keypoints (utils.py lines
88 to 106): for each person and each enumerated skeleton edge whose two
keypoint names both occur in the person dictionary, one filled polygon. -/
def limbOpsP (edges : List (String × String)) (p : Person4) : List DrawOp :=
  edges.enum.filterMap (fun ie =>
    if ie.2.1 ∈ personKeys p ∧ ie.2.2 ∈ personKeys p then
      some (DrawOp.limb ie.1)
    else none)

/-- Limb operations over all persons. -/
def limbOps (edges : List (String × String)) : List Person4 → List DrawOp
  | [] => []
  | p :: ps => limbOpsP edges p ++ limbOps edges ps

/-- The successive cv.imwrite calls of plot_keypoints to output_path, as
the draw operations overlaid on the input image in each written file.
When render_limbs is false, line 86 first writes the blended
circles-only image; line 107 then unconditionally writes the canvas on
which the limb loop has also drawn. -/
def plotWrites (image_res : List Person4) (edges : List (String × String))
    (render_limbs : Bool) : List (List DrawOp) :=
  (if render_limbs then [] else [circleOps image_res]) ++
    [circleOps image_res ++ limbOps edges image_res]

/-- The content of the file at output_path after plot_keypoints returns:
the last write wins. -/
def plotSaved (image_res : List Person4) (edges : List (String × String))
    (render_limbs : Bool) : List DrawOp :=
  (plotWrites image_res edges render_limbs).getLastD []

/-! ## utils.py : map_confidence_to_chunk (lines 146 to 156) -/

/-- Python str.replace with empty replacement, on character lists:
removes the non-overlapping occurrences of pat left to right.  The fuel
argument (instantiated with the length of the scanned list) keeps the
recursion structural; it never runs out at that instantiation. -/
def pyReplaceAux (pat : List Char) : Nat → List Char → List Char
  | 0, cs => cs
  | _ + 1, [] => []
  | fuel + 1, c :: cs =>
    if pat ≠ [] ∧ pat.isPrefixOf (c :: cs) then
      pyReplaceAux pat fuel ((c :: cs).drop pat.length)
    else
      c :: pyReplaceAux pat fuel cs

/-- Python s.replace(pat, empty string). -/
def pyReplace (s pat : String) : String :=
  String.mk (pyReplaceAux pat.data s.data.length s.data)

/-- A bounding box of an LPRNet response; confidence_score is none when
the key is missing. -/
structure LprBBox where
  confidence_score : Option Rat
deriving DecidableEq

/-- One response dictionary consumed by map_confidence_to_chunk. -/
structure LprResponse where
  file_name : String
  all_bboxes : List LprBBox
deriving DecidableEq

/-- The dictionary key computed at utils.py line 149. -/
def chunkKey (filename : String) (r : LprResponse) : String :=
  pyReplace r.file_name filename

/-- The score stored at utils.py lines 150 to 153: the confidence of the
first bounding box, and 1/100 when the try block raises (no first box or
no confidence_score key). -/
def chunkScore (r : LprResponse) : Rat :=
  ((r.all_bboxes.head?).bind (fun b => b.confidence_score)).getD (1 / 100)

/-- Python dict assignment conf[key] = v on an association list: replace
the value of the first matching key in place, or append a new entry. -/
def dictInsert : List (String × Rat) → String → Rat → List (String × Rat)
  | [], k, v => [(k, v)]
  | kv :: d, k, v => if kv.1 = k then (k, v) :: d else kv :: dictInsert d k v

/-- Model of map_confidence_to_chunk (utils.py lines 146 to 156). -/
def map_confidence_to_chunk (responses : List LprResponse) (filename : String) :
    List (String × Rat) :=
  responses.foldl (fun conf r => dictInsert conf (chunkKey filename r) (chunkScore r)) []

/-- The last element of a list satisfying p, used to state which
response determines each entry of the dictionary. -/
def lastMatching {α : Type} (p : α → Bool) : List α → Option α
  | [] => none
  | r :: rs =>
    match lastMatching p rs with
    | some x => some x
    | none => if p r then some r else none

/-- Generic lookup in a String-keyed association list with Rat values
(kept separate from lookupKV for definitional transparency in proofs). -/
def lookupConf : List (String × Rat) → String → Option Rat
  | [], _ => none
  | kv :: d, k => if kv.1 = k then some kv.2 else lookupConf d k

/-! ## Concrete inputs used by the counterexamples and witnesses -/

/-- Concrete BodyPoseNet result with one person holding two keypoints
(so the dictionary has four items and total is 4) and one skeleton edge
joining them. -/
def cexPersons : List Person4 := [⟨[("nose", 1, 1), ("neck", 2, 2)], 9, 4⟩]

/-- The skeleton edge list for the plot_keypoints failing input. -/
def cexEdges : List (String × String) := [("nose", "neck")]

/-- Concrete batch results for the C8 witness: one recognised plate and
one empty plate. -/
def cexBatches : List (List (String × List Rat × String)) :=
  [[("AB12", [], "f1")], [("", [], "f2")]]

/-- Starting state for the C3 counterexample: the whole input tree and
the output tree up to the id level exist, but the output curr_time
directory is missing. -/
def cdCexFS : FileSys :=
  [["triton_client"], ["triton_client", "m"], ["triton_client", "m", "input"],
   ["triton_client", "m", "output"], ["triton_client", "m", "input", "i"],
   ["triton_client", "m", "output", "i"], ["triton_client", "m", "input", "i", "t"]]

/-- Resulting state of create_directories from a state holding only the
top-level triton_client directory. -/
def cdWitnessResult : FileSys :=
  [["triton_client"], ["triton_client", "m"], ["triton_client", "m", "input"],
   ["triton_client", "m", "output"], ["triton_client", "m", "input", "i"],
   ["triton_client", "m", "output", "i"], ["triton_client", "m", "input", "i", "t"],
   ["triton_client", "m", "output", "i", "t"]]

/-! ## Theorems -/

/-- C2 (amended).  BodyPoseNetClass.status returns the 503 Inactive
dictionary exactly when the GET raises ConnectionError, and returns the
200 Active dictionary whenever the GET returns a response, regardless of
its HTTP status code; an exception other than ConnectionError is not
caught and propagates out of status. -/
theorem bodyposenet_status_characterization (g : GetResult) (c : Nat) :
    (bodyposenet_status g = Except.ok ⟨503, "Inactive"⟩ ↔ g = GetResult.connectionError) ∧
    bodyposenet_status (GetResult.response c) = Except.ok ⟨200, "Active"⟩ ∧
    bodyposenet_status GetResult.otherException = Except.error () := by
  refine ⟨?_, rfl, rfl⟩
  cases g <;> simp [bodyposenet_status]

/-- C2 counterexample.  When the GET raises an exception that is not a
ConnectionError, status does not return the 200 Active dictionary (it
does not return at all), refuting the claim that every case other than
ConnectionError yields the Active dictionary. -/
theorem bodyposenet_status_counterexample :
    GetResult.otherException ≠ GetResult.connectionError ∧
    bodyposenet_status GetResult.otherException ≠ Except.ok ⟨200, "Active"⟩ :=
  ⟨by decide, fun h => Except.noConfusion h⟩

/-- C9.  For a path that does not exist, BodyPoseNetClass.predict
returns the 400 error dictionary and does not run inference, and for a
path that exists it invokes the private _predict method on that path. -/
theorem bodyposenet_predict_path_check (fs : List String) (p q : String) (f : String → Nat)
    (hp : pathExists fs p = false) (hq : pathExists fs q = true) :
    bodyposenet_predict_dispatch fs p f =
      ⟨false, BpResult.errorDict 400 "File Path does not exist!"⟩ ∧
    (bodyposenet_predict_dispatch fs p f).ranInference = false ∧
    bodyposenet_predict_dispatch fs q f = ⟨true, BpResult.inference (f q)⟩ ∧
    (bodyposenet_predict_dispatch fs q f).ranInference = true := by
  simp [bodyposenet_predict_dispatch, hp, hq]

/-- C9 witness at a concrete filesystem. -/
theorem bodyposenet_predict_path_check_witness :
    pathExists ["present"] ("missing") = false ∧
    pathExists ["present"] ("present") = true ∧
    (bodyposenet_predict_dispatch ["present"] ("missing") (fun _ => 0) =
       ⟨false, BpResult.errorDict 400 "File Path does not exist!"⟩ ∧
     (bodyposenet_predict_dispatch ["present"] ("missing") (fun _ => 0)).ranInference = false ∧
     bodyposenet_predict_dispatch ["present"] ("present") (fun _ => 0) =
       ⟨true, BpResult.inference 0⟩ ∧
     (bodyposenet_predict_dispatch ["present"] ("present") (fun _ => 0)).ranInference = true) :=
  ⟨by decide, by decide,
    bodyposenet_predict_path_check ["present"] ("missing") ("present") (fun _ => 0)
      (by decide) (by decide)⟩

/-- C10.  When FLAGS streaming is set and the lowercased protocol is not
grpc, lpr_predict raises the streaming exception before the client is
created, so the interaction trace is empty: no server communication
occurs. -/
theorem lpr_streaming_requires_grpc (fl : LprFlags) (nFrames batchSize : Nat)
    (maxBatchSize : Int) (hs : fl.streaming = true)
    (hp : lowerStr fl.protocol ≠ "grpc") :
    lpr_client_trace fl nFrames batchSize maxBatchSize =
      ([], some "Streaming is only allowed with gRPC protocol") := by
  simp [lpr_client_trace, hs, hp]

/-- C10 witness with the HTTP protocol. -/
theorem lpr_streaming_requires_grpc_witness :
    (⟨false, true, false, "HTTP"⟩ : LprFlags).streaming = true ∧
    lowerStr (⟨false, true, false, "HTTP"⟩ : LprFlags).protocol ≠ "grpc" ∧
    lpr_client_trace ⟨false, true, false, "HTTP"⟩ 3 2 16 =
      ([], some "Streaming is only allowed with gRPC protocol") :=
  ⟨rfl, by decide,
    lpr_streaming_requires_grpc ⟨false, true, false, "HTTP"⟩ 3 2 16 rfl (by decide)⟩

/-- C5 failing input.  On a 100 by 100 image with the single box
dictionary mapping bbox to [10, 10, 20, 20] and linewidth 2, render_image
draws the rectangle [10, 10, 20, 20] three times and never draws the
clamped thickened rectangle [9, 9, 21, 21] that lines 18 to 21 compute
for loop index 1, so the outline is not thickened to linewidth pixels;
a box of negative width is skipped as the claim states. -/
theorem render_image_thickness_bug :
    render_image 100 100 [[("bbox", ⟨10, 10, 20, 20⟩)]] ("yellow") 2 =
      Except.ok [ROp.rect ⟨10, 10, 20, 20⟩ ("yellow"), ROp.rect ⟨10, 10, 20, 20⟩ ("yellow"),
        ROp.rect ⟨10, 10, 20, 20⟩ ("yellow")] ∧
    thickenedRect 100 100 ⟨10, 10, 20, 20⟩ 1 = ⟨9, 9, 21, 21⟩ ∧
    ((⟨9, 9, 21, 21⟩ : RBox) = ⟨10, 10, 20, 20⟩ → False) ∧
    render_image 100 100 [[("the bbox", ⟨10, 10, 5, 20⟩)]] ("yellow") 2 = Except.ok [] :=
  ⟨rfl, rfl, by decide, rfl⟩

/-- C4 failing input.  With render_limbs set to false, the first write
of plot_keypoints holds exactly one circle per keypoint (the score and
total items excluded), but line 107 then unconditionally overwrites
output_path with the canvas on which the limb loop has drawn, so the
saved image contains a limb connection although render_limbs is false. -/
theorem plot_keypoints_limb_bug :
    DrawOp.limb 0 ∈ plotSaved cexPersons cexEdges false ∧
    plotSaved cexPersons cexEdges false = circleOps cexPersons ++ [DrawOp.limb 0] ∧
    circleOps cexPersons = [DrawOp.circle (PVal.pt 1 1) 0, DrawOp.circle (PVal.pt 2 2) 1] ∧
    (plotWrites cexPersons cexEdges false).head? = some (circleOps cexPersons) := by
  decide

/-- Every element of the final response comes from final_image_response
applied to one triple of some batch result. -/
theorem mem_lpr_final_response {batches : List (List (String × List Rat × String))}
    {r : List (String × JVal)} (hr : r ∈ lpr_final_response batches) :
    ∃ t : String × List Rat × String, r = final_image_response t.1 t.2.1 t.2.2 := by
  induction batches with
  | nil => cases hr
  | cons batch rest ih =>
    rw [lpr_final_response] at hr
    rcases List.mem_append.mp hr with h | h
    · rcases List.mem_map.mp h with ⟨t, _, rfl⟩
      exact ⟨t, rfl⟩
    · exact ih h

/-- C8.  Every element of the list returned by lpr_predict has exactly
the keys HTTPStatus, file_name, license_plate and confidence_scores, in
that order, and its HTTPStatus is 200 exactly when its license_plate is
non-empty and 204 exactly when the plate is empty. -/
theorem lpr_final_response_shape (batches : List (List (String × List Rat × String)))
    (r : List (String × JVal)) (hr : r ∈ lpr_final_response batches) :
    keysOf r = ["HTTPStatus", "file_name", "license_plate", "confidence_scores"] ∧
    (lookupKV r ("HTTPStatus") = some (JVal.nat 200) ↔
      lookupKV r ("license_plate") ≠ some (JVal.str "")) ∧
    (lookupKV r ("HTTPStatus") = some (JVal.nat 204) ↔
      lookupKV r ("license_plate") = some (JVal.str "")) := by
  obtain ⟨t, rfl⟩ := mem_lpr_final_response hr
  have e1 : lookupKV (final_image_response t.1 t.2.1 t.2.2) ("HTTPStatus") =
      (if t.1.length ≠ 0 then some (JVal.nat 200) else some (JVal.nat 204)) := by
    unfold final_image_response; split <;> rfl
  have e2 : lookupKV (final_image_response t.1 t.2.1 t.2.2) ("license_plate") =
      some (JVal.str t.1) := by
    unfold final_image_response; split <;> rfl
  have e3 : keysOf (final_image_response t.1 t.2.1 t.2.2) =
      ["HTTPStatus", "file_name", "license_plate", "confidence_scores"] := by
    unfold final_image_response; split <;> rfl
  rw [e1, e2, e3]
  by_cases hlen : t.1.length = 0
  · have hstr : t.1 = "" := by
      apply String.ext
      have h0 : t.1.data.length = 0 := hlen
      simpa using List.length_eq_zero.mp h0
    simp [hlen, hstr]
  · have hne : t.1 ≠ "" := by
      intro he; exact hlen (by rw [he]; rfl)
    simp [hlen, hne]

/-- C8 witness at a concrete postprocessor output. -/
theorem lpr_final_response_shape_witness :
    final_image_response ("AB12") [] ("f1") ∈ lpr_final_response cexBatches ∧
    (keysOf (final_image_response ("AB12") [] ("f1")) =
        ["HTTPStatus", "file_name", "license_plate", "confidence_scores"] ∧
      (lookupKV (final_image_response ("AB12") [] ("f1")) ("HTTPStatus") = some (JVal.nat 200) ↔
        lookupKV (final_image_response ("AB12") [] ("f1")) ("license_plate") ≠
          some (JVal.str "")) ∧
      (lookupKV (final_image_response ("AB12") [] ("f1")) ("HTTPStatus") = some (JVal.nat 204) ↔
        lookupKV (final_image_response ("AB12") [] ("f1")) ("license_plate") =
          some (JVal.str ""))) :=
  ⟨by decide,
    lpr_final_response_shape cexBatches (final_image_response ("AB12") [] ("f1")) (by decide)⟩

/-- Lookup after a Python dict assignment: the assigned key now maps to
the assigned value and every other key is unchanged. -/
theorem lookup_dictInsert (d : List (String × Rat)) (k v k2) :
    lookupConf (dictInsert d k v) k2 = if k2 = k then some v else lookupConf d k2 := by
  induction d with
  | nil =>
    by_cases h : k2 = k
    · simp [dictInsert, lookupConf, h]
    · simp [dictInsert, lookupConf, h, Ne.symm h]
  | cons kv d ih =>
    by_cases h1 : kv.1 = k
    · rw [dictInsert, if_pos h1]
      by_cases h : k2 = k
      · simp [lookupConf, h, h1]
      · simp [lookupConf, h, h1, Ne.symm h]
    · rw [dictInsert, if_neg h1]
      by_cases h2 : kv.1 = k2
      · have hne : k2 ≠ k := fun he => h1 (h2.trans he)
        simp [lookupConf, h2, hne]
      · simp [lookupConf, h2, ih]

/-- Unfolding the accumulation loop of map_confidence_to_chunk: a key
holds the score of the last response mapping to it, and otherwise the
accumulator is untouched. -/
theorem lookup_foldl_dictInsert (filename key : String) (responses : List LprResponse)
    (d : List (String × Rat)) :
    lookupConf
      (responses.foldl (fun conf r => dictInsert conf (chunkKey filename r) (chunkScore r)) d)
      key =
      match lastMatching (fun r => decide (chunkKey filename r = key)) responses with
      | some r => some (chunkScore r)
      | none => lookupConf d key := by
  induction responses generalizing d with
  | nil => rfl
  | cons r rs ih =>
    rw [List.foldl_cons, ih]
    show _ = match lastMatching _ (r :: rs) with
      | some x => some (chunkScore x)
      | none => lookupConf d key
    rw [lastMatching]
    cases h : lastMatching (fun r => decide (chunkKey filename r = key)) rs with
    | some x => rfl
    | none =>
      by_cases hk : chunkKey filename r = key
      · simp [hk, lookup_dictInsert]
      · simp [hk, lookup_dictInsert, Ne.symm hk]

/-- C6 (amended).  The dictionary returned by map_confidence_to_chunk
has one entry per distinct stripped key: looking up any key yields the
score of the last response whose file_name, with the filename substring
removed, equals that key (its first bounding box confidence, or 1/100
when that is not retrievable, per chunkScore), and none when no response
maps to the key. -/
theorem map_confidence_to_chunk_characterization (responses : List LprResponse)
    (filename key : String) :
    lookupConf (map_confidence_to_chunk responses filename) key =
      (lastMatching (fun r => decide (chunkKey filename r = key)) responses).map chunkScore := by
  rw [map_confidence_to_chunk, lookup_foldl_dictInsert]
  cases lastMatching (fun r => decide (chunkKey filename r = key)) responses <;> rfl

/-- C6 counterexample.  Two responses with the same file_name produce a
dictionary with a single entry holding the later score, not one entry
per response. -/
theorem map_confidence_to_chunk_counterexample :
    (map_confidence_to_chunk [⟨"a", [⟨some 1⟩]⟩, ⟨"a", [⟨some 2⟩]⟩] ("z")).length = 1 ∧
    ([⟨"a", [⟨some 1⟩]⟩, ⟨"a", [⟨some 2⟩]⟩] : List LprResponse).length = 2 ∧
    map_confidence_to_chunk [⟨"a", [⟨some 1⟩]⟩, ⟨"a", [⟨some 2⟩]⟩] ("z") = [("a", 2)] := by
  decide

/-- Characterisation of the inner for loop: starting at image_idx below
n, it consumes the b indices idx, idx plus one, ... modulo n, leaves
image_idx at (idx plus b) modulo n, and sets last_request exactly when
the window reached or passed a multiple of n. -/
theorem innerFor_eq (n : Nat) (hn : 0 < n) :
    ∀ (b idx : Nat), idx < n →
      innerFor n idx b =
        ((List.range b).map (fun i => (idx + i) % n), (idx + b) % n, decide (n ≤ idx + b)) := by
  intro b
  induction b with
  | zero =>
    intro idx hidx
    simp [innerFor, Nat.mod_eq_of_lt hidx, Nat.not_le.mpr hidx]
  | succ b ih =>
    intro idx hidx
    have hidx2 : (idx + 1) % n < n := Nat.mod_lt _ hn
    simp only [innerFor, ih ((idx + 1) % n) hidx2, Prod.mk.injEq]
    refine ⟨?_, ?_, ?_⟩
    · rw [List.range_succ_eq_map, List.map_cons, List.map_map]
      refine congrArg₂ _ (by simpa using (Nat.mod_eq_of_lt hidx).symm) ?_
      apply List.map_congr_left
      intro i _
      show ((idx + 1) % n + i) % n = (idx + Nat.succ i) % n
      rw [Nat.mod_add_mod]
      exact congrArg (fun t => t % n) (by omega)
    · rw [Nat.mod_add_mod]
      exact congrArg (fun t => t % n) (by omega)
    · rcases Nat.lt_or_ge (idx + 1) n with h | h
      · have h0 : (idx + 1) % n = idx + 1 := Nat.mod_eq_of_lt h
        rw [h0]
        have h1 : ((idx + 1 : Nat) == 0) = false := by simp
        rw [h1, Bool.false_or]
        exact decide_eq_decide.mpr (by omega)
      · have h2 : idx + 1 = n := by omega
        have h0 : (idx + 1) % n = 0 := by rw [h2]; exact Nat.mod_self n
        rw [h0]
        have h3 : n ≤ idx + (b + 1) := by omega
        simp [h3]

/-- Bounds pinning down the ceiling quotient used to count batches. -/
theorem ceil_bounds (n b : Nat) (hn : 0 < n) (hb : 0 < b) :
    n ≤ ((n + b - 1) / b) * b ∧ ((n + b - 1) / b) * b ≤ n + b - 1 ∧ 1 ≤ (n + b - 1) / b := by
  have hdm := Nat.div_add_mod (n + b - 1) b
  have hml : (n + b - 1) % b < b := Nat.mod_lt _ hb
  have h1 : 1 ≤ (n + b - 1) / b := (Nat.one_le_div_iff hb).mpr (by omega)
  have hc : ((n + b - 1) / b) * b = b * ((n + b - 1) / b) := Nat.mul_comm _ _
  refine ⟨?_, ?_, h1⟩
  · rw [hc]; omega
  · rw [hc]; omega

/-- Characterisation of the fuelled while loop: started at index k times
b with enough fuel it produces the batches numbered k up to the ceiling
quotient. -/
theorem outerLoop_eq (n b : Nat) (hn : 0 < n) (hb : 0 < b) :
    ∀ (fuel k : Nat), k * b < n → (n + b - 1) / b ≤ k + fuel →
      outerLoop n b fuel (k * b) =
        (List.range' k ((n + b - 1) / b - k)).map
          (fun j => (List.range b).map (fun i => (j * b + i) % n)) := by
  intro fuel
  induction fuel with
  | zero =>
    intro k hk hr
    exfalso
    obtain ⟨hc1, hc2, hc3⟩ := ceil_bounds n b hn hb
    have hm := Nat.mul_le_mul_right b (by omega : (n + b - 1) / b ≤ k)
    omega
  | succ fuel ih =>
    intro k hk hr
    simp only [outerLoop]
    rw [innerFor_eq n hn b (k * b) hk]
    by_cases hlast : n ≤ k * b + b
    · rw [decide_eq_true hlast]
      obtain ⟨hc1, hc2, hc3⟩ := ceil_bounds n b hn hb
      have hrk : (n + b - 1) / b = k + 1 := by
        by_contra hne
        rcases Nat.lt_or_ge ((n + b - 1) / b) (k + 1) with h | h
        · have hm := Nat.mul_le_mul_right b (by omega : (n + b - 1) / b ≤ k)
          omega
        · have h2 : k + 2 ≤ (n + b - 1) / b := by omega
          have hm := Nat.mul_le_mul_right b h2
          have he : (k + 2) * b = k * b + 2 * b := by ring
          omega
      rw [hrk]
      simp [List.range'_one]
    · rw [decide_eq_false hlast]
      have hlt : k * b + b < n := by omega
      have hsm : (k + 1) * b = k * b + b := by ring
      have hmod : (k * b + b) % n = (k + 1) * b := by
        rw [Nat.mod_eq_of_lt hlt, hsm]
      obtain ⟨hc1, hc2, hc3⟩ := ceil_bounds n b hn hb
      have hkr : k < (n + b - 1) / b := by
        by_contra hge
        have hm := Nat.mul_le_mul_right b (by omega : (n + b - 1) / b ≤ k)
        omega
      have htail := ih (k + 1) (by omega) (by omega)
      have hlen : (n + b - 1) / b - k = ((n + b - 1) / b - (k + 1)) + 1 := by omega
      simp only [if_neg (by simp : ¬((false : Bool) = true))]
      rw [hmod, htail, hlen, List.range'_succ, List.map_cons]

/-- Full characterisation of the batch loop of lpr_predict: for n frames
and batch size b the loop builds the ceiling of n over b batches, and
batch j holds the frame indices j times b plus i modulo n for i below b,
wrapping around to the first frames when the frame list is exhausted. -/
theorem lprBatchLoop_eq (n b : Nat) (hn : 0 < n) (hb : 0 < b) :
    lprBatchLoop n b =
      (List.range ((n + b - 1) / b)).map
        (fun j => (List.range b).map (fun i => (j * b + i) % n)) := by
  have hrn : (n + b - 1) / b ≤ n := by
    by_contra hgt
    obtain ⟨hc1, hc2, hc3⟩ := ceil_bounds n b hn hb
    have h2 : n + 1 ≤ (n + b - 1) / b := by omega
    have h3 := Nat.mul_le_mul_right b h2
    have h4 : (n + 1) * b = n * b + b := by ring
    have h5 : n ≤ n * b := Nat.le_mul_of_pos_right n hb
    omega
  have h := outerLoop_eq n b hn hb n 0 (by simpa using hn) (by omega)
  simpa [lprBatchLoop, List.range_eq_range'] using h

/-- C1 (amended).  For a non-empty frame list and positive batch size,
lpr_predict sends exactly the ceiling of n over b inference requests;
the loop fills every batch with exactly b preprocessed images, wrapping
around to the first frames when n is not a multiple of b; and, provided
the model reports a positive max_batch_size, the request payload is the
whole batch, so every request carries exactly batch_size images. -/
theorem lpr_predict_batching (n b : Nat) (m : Int) (hn : 0 < n) (hb : 0 < b) (hm : 0 < m) :
    lprBatchLoop n b =
      (List.range ((n + b - 1) / b)).map
        (fun j => (List.range b).map (fun i => (j * b + i) % n)) ∧
    (lprBatchLoop n b).length = (n + b - 1) / b ∧
    ((lprBatchLoop n b).map (requestPayload m)).all (fun req => req.length == b) = true := by
  have hchar := lprBatchLoop_eq n b hn hb
  refine ⟨hchar, ?_, ?_⟩
  · rw [hchar]; simp
  · rw [hchar]
    simp [requestPayload, hm, List.all_eq_true]

/-- C1 witness with three frames and batch size two. -/
theorem lpr_predict_batching_witness :
    (0 : Nat) < 3 ∧ (0 : Nat) < 2 ∧ (0 : Int) < 1 ∧
    (lprBatchLoop 3 2 =
        (List.range ((3 + 2 - 1) / 2)).map
          (fun j => (List.range 2).map (fun i => (j * 2 + i) % 3)) ∧
      (lprBatchLoop 3 2).length = (3 + 2 - 1) / 2 ∧
      ((lprBatchLoop 3 2).map (requestPayload 1)).all (fun req => req.length == 2) = true) :=
  ⟨by decide, by decide, by decide,
    lpr_predict_batching 3 2 1 (by decide) (by decide) (by decide)⟩

/-- C1 counterexample.  With one frame, batch size two and a model whose
max_batch_size is 0, the single request carries one image, not
batch_size images: line 237 of lpr_client.py sends only the first
preprocessed image when max_batch_size is not positive. -/
theorem lpr_predict_batching_counterexample :
    lprBatchLoop 1 2 = [[0, 0]] ∧
    (lprBatchLoop 1 2).map (requestPayload (0 : Int)) = [[0]] ∧
    (([0] : List Nat)).length ≠ 2 := by
  decide

/-- Inversion for sequencing in the Except monad. -/
theorem exceptBind_ok {α β : Type} {x : Except Unit α} {f : α → Except Unit β} {v : β}
    (h : Except.bind x f = Except.ok v) : ∃ a, x = Except.ok a ∧ f a = Except.ok v := by
  cases x with
  | error e => exact Except.noConfusion h
  | ok a => exact ⟨a, rfl, h⟩

/-- A successful os.mkdir appends exactly the new directory. -/
theorem mkdir_ok {fs fs2 : FileSys} {p : DirPath} (h : mkdir fs p = Except.ok fs2) :
    fs2 = fs ++ [p] ∧ p ∉ fs := by
  by_cases h1 : p ∈ fs
  · rw [mkdir, if_pos h1] at h
    exact Except.noConfusion h
  · rw [mkdir, if_neg h1] at h
    by_cases h2 : p.dropLast = ([] : DirPath) ∨ p.dropLast ∈ fs
    · rw [if_pos h2] at h
      injection h with h
      exact ⟨h.symm, h1⟩
    · rw [if_neg h2] at h
      exact Except.noConfusion h

/-- A successful first if-block either leaves the state unchanged or
appends the model, input and output directories. -/
theorem cdStep1_ok {fs fsA : FileSys} {model : String} (h : cdStep1 fs model = Except.ok fsA) :
    fsA = fs ∨
    fsA = fs ++ [["triton_client", model], ["triton_client", model, "input"],
      ["triton_client", model, "output"]] := by
  by_cases h1 : isdir fs ["triton_client", model]
  · rw [cdStep1, if_pos h1] at h
    injection h with h
    exact Or.inl h.symm
  · rw [cdStep1, if_neg h1] at h
    rcases e1 : mkdir fs ["triton_client", model] with _ | fs1
    · rw [e1] at h; exact Except.noConfusion h
    · rw [e1] at h
      dsimp only at h
      rcases e2 : mkdir fs1 ["triton_client", model, "input"] with _ | fs2
      · rw [e2] at h; exact Except.noConfusion h
      · rw [e2] at h
        dsimp only at h
        obtain ⟨g1, -⟩ := mkdir_ok e1
        obtain ⟨g2, -⟩ := mkdir_ok e2
        obtain ⟨g3, -⟩ := mkdir_ok h
        subst g1 g2 g3
        right
        simp

/-- A successful second if-block either skips (the input id directory
already exists) or appends the input and output id directories. -/
theorem cdStep2_ok {fsA fsC : FileSys} {model id : String}
    (h : cdStep2 fsA model id = Except.ok fsC) :
    (fsC = fsA ∧ ["triton_client", model, "input", id] ∈ fsA) ∨
    fsC = fsA ++ [["triton_client", model, "input", id],
      ["triton_client", model, "output", id]] := by
  by_cases h1 : isdir fsA ["triton_client", model, "input", id]
  · rw [cdStep2, if_pos h1] at h
    injection h with h
    exact Or.inl ⟨h.symm, of_decide_eq_true h1⟩
  · rw [cdStep2, if_neg h1] at h
    rcases e1 : mkdir fsA ["triton_client", model, "input", id] with _ | fsB
    · rw [e1] at h; exact Except.noConfusion h
    · rw [e1] at h
      dsimp only at h
      obtain ⟨g1, -⟩ := mkdir_ok e1
      obtain ⟨g2, -⟩ := mkdir_ok h
      subst g1 g2
      right
      simp

/-- A successful third if-block either skips (the input curr_time
directory already exists) or appends the input and output curr_time
directories. -/
theorem cdStep3_ok {fsC fs2 : FileSys} {model id time : String}
    (h : cdStep3 fsC model id time = Except.ok fs2) :
    (fs2 = fsC ∧ ["triton_client", model, "input", id, time] ∈ fsC) ∨
    fs2 = fsC ++ [["triton_client", model, "input", id, time],
      ["triton_client", model, "output", id, time]] := by
  by_cases h1 : isdir fsC ["triton_client", model, "input", id, time]
  · rw [cdStep3, if_pos h1] at h
    injection h with h
    exact Or.inl ⟨h.symm, of_decide_eq_true h1⟩
  · rw [cdStep3, if_neg h1] at h
    rcases e1 : mkdir fsC ["triton_client", model, "input", id, time] with _ | fsD
    · rw [e1] at h; exact Except.noConfusion h
    · rw [e1] at h
      dsimp only at h
      obtain ⟨g1, -⟩ := mkdir_ok e1
      obtain ⟨g2, -⟩ := mkdir_ok h
      subst g1 g2
      right
      simp

/-- C3 (amended).  For every starting state in which the output
curr_time directory exists whenever the corresponding input curr_time
directory does (in particular any state where the function has kept the
input and output trees in step), if create_directories returns without
raising then both the input and the output curr_time directories exist
afterwards, and every directory that existed before still exists. -/
theorem create_directories_amended (fs : FileSys) (model id time : String) (fs2 : FileSys)
    (hsync : ["triton_client", model, "input", id, time] ∈ fs →
      ["triton_client", model, "output", id, time] ∈ fs)
    (hok : create_directories fs model id time = Except.ok fs2) :
    ["triton_client", model, "input", id, time] ∈ fs2 ∧
    ["triton_client", model, "output", id, time] ∈ fs2 ∧
    fs ⊆ fs2 := by
  obtain ⟨fsA, h1, hok2⟩ := exceptBind_ok hok
  obtain ⟨fsC, h2, h3⟩ := exceptBind_ok hok2
  rcases cdStep1_ok h1 with e1 | e1 <;> subst fsA <;>
    rcases cdStep2_ok h2 with ⟨e2, -⟩ | e2 <;> subst fsC <;>
    rcases cdStep3_ok h3 with ⟨e3, hmem⟩ | e3 <;> subst fs2
  · exact ⟨hmem, hsync hmem, fun _ hx => hx⟩
  · exact ⟨by simp, by simp, List.subset_append_left _ _⟩
  · have hI : ["triton_client", model, "input", id, time] ∈ fs := by simpa using hmem
    exact ⟨hmem, by simp [hsync hI], List.subset_append_left _ _⟩
  · exact ⟨by simp, by simp, by intro x hx; simp [List.mem_append, hx]⟩
  · have hI : ["triton_client", model, "input", id, time] ∈ fs := by simpa using hmem
    exact ⟨hmem, by simp [hsync hI], List.subset_append_left _ _⟩
  · exact ⟨by simp, by simp, by intro x hx; simp [List.mem_append, hx]⟩
  · have hI : ["triton_client", model, "input", id, time] ∈ fs := by simpa using hmem
    exact ⟨hmem, by simp [hsync hI], by intro x hx; simp [List.mem_append, hx]⟩
  · exact ⟨by simp, by simp, by intro x hx; simp [List.mem_append, hx]⟩

/-- C3 counterexample.  From cdCexFS, create_directories returns without
creating anything (all three checks on the input tree pass), yet the
output curr_time directory does not exist afterwards: the function never
checks the output tree. -/
theorem create_directories_counterexample :
    create_directories cdCexFS ("m") ("i") ("t") = Except.ok cdCexFS ∧
    (["triton_client", "m", "output", "i", "t"] : DirPath) ∉ cdCexFS :=
  ⟨rfl, by decide⟩

/-- C3 witness on a concrete synchronized starting state. -/
theorem create_directories_amended_witness :
    ((["triton_client", "m", "input", "i", "t"] : DirPath) ∈ ([["triton_client"]] : FileSys) →
      (["triton_client", "m", "output", "i", "t"] : DirPath) ∈ ([["triton_client"]] : FileSys)) ∧
    ((["triton_client", "m", "input", "i", "t"] : DirPath) ∈ cdWitnessResult ∧
      (["triton_client", "m", "output", "i", "t"] : DirPath) ∈ cdWitnessResult ∧
      ([["triton_client"]] : FileSys) ⊆ cdWitnessResult) :=
  ⟨by decide,
    create_directories_amended [["triton_client"]] ("m") ("i") ("t") cdWitnessResult
      (by decide) rfl⟩


/-- The head of a non-empty dropWhile result fails the predicate. -/
theorem dropWhile_head_not {p : Char → Bool} :
    ∀ {l : List Char} {c : Char} {t : List Char}, l.dropWhile p = c :: t → p c = false := by
  intro l
  induction l with
  | nil => intro c t h; exact List.noConfusion h
  | cons x xs ih =>
    intro c t h
    rw [List.dropWhile_cons] at h
    by_cases hx : p x
    · rw [if_pos hx] at h
      exact ih h
    · rw [if_neg hx] at h
      injection h with h1 h2
      subst h1
      exact Bool.of_not_eq_true hx

/-- fromLastDot finds the last dot: appending a dot-free tail after a
dot returns the suffix from that dot. -/
theorem fromLastDot_append (xs : List Char) :
    ∀ {ys : List Char}, '.' ∉ ys → fromLastDot (xs ++ '.' :: ys) = '.' :: ys := by
  induction xs with
  | nil =>
    intro ys h
    rw [List.nil_append, fromLastDot]
    have hc : ys.contains '.' = false := by simpa using h
    rw [hc]
    simp
  | cons x xs ih =>
    intro ys h
    rw [List.cons_append, fromLastDot]
    have hc : (xs ++ '.' :: ys).contains '.' = true := by simp
    rw [hc]
    simp only [if_pos rfl]
    exact ih h

/-- fromLastDot returns a suffix of its input. -/
theorem fromLastDot_suffix : ∀ cs : List Char, ∃ pre, cs = pre ++ fromLastDot cs := by
  intro cs
  induction cs with
  | nil => exact ⟨[], rfl⟩
  | cons c cs ih =>
    rw [fromLastDot]
    by_cases h1 : cs.contains '.' = true
    · rw [if_pos h1]
      obtain ⟨pre, hp⟩ := ih
      exact ⟨c :: pre, by rw [List.cons_append, hp.symm]⟩
    · rw [if_neg h1]
      by_cases h2 : c = '.'
      · rw [if_pos h2]
        exact ⟨[], rfl⟩
      · rw [if_neg h2]
        obtain ⟨pre, hp⟩ := ih
        exact ⟨c :: pre, by rw [List.cons_append, hp.symm]⟩

/-- On a list containing a dot, fromLastDot returns a list starting
with a dot. -/
theorem fromLastDot_shape : ∀ {cs : List Char}, cs.contains '.' = true →
    ∃ t, fromLastDot cs = '.' :: t := by
  intro cs
  induction cs with
  | nil => intro h; simp at h
  | cons c cs ih =>
    intro h
    rw [fromLastDot]
    by_cases h1 : cs.contains '.' = true
    · rw [if_pos h1]
      exact ih h1
    · rw [if_neg h1]
      have hc : c = '.' := by
        simp at h h1
        rcases h with h | h
        · exact h.symm
        · exact absurd h h1
      rw [if_pos hc, hc]
      exact ⟨cs, rfl⟩

/-- dropWhile distributes over an append whose left part is not wholly
dropped. -/
theorem dropWhile_append_ne_nil {p : Char → Bool} :
    ∀ {l1 : List Char} (l2 : List Char), l1.dropWhile p ≠ [] →
      (l1 ++ l2).dropWhile p = l1.dropWhile p ++ l2 := by
  intro l1
  induction l1 with
  | nil => intro l2 h; exact absurd rfl h
  | cons x xs ih =>
    intro l2 h
    rw [List.cons_append, List.dropWhile_cons, List.dropWhile_cons]
    by_cases hx : p x
    · simp only [if_pos hx]
      rw [List.dropWhile_cons, if_pos hx] at h
      exact ih l2 h
    · rw [if_neg hx, if_neg hx, List.cons_append]

/-- Forward direction of the splitext characterisation: a non-empty
extension splits the name into a stem containing a non-dot character
followed by the extension. -/
theorem pyextList_forward {cs e : List Char} (hne : e ≠ []) (h : pyextList cs = e) :
    ∃ stem : List Char, cs = stem ++ e ∧ ∃ c ∈ stem, c ≠ '.' := by
  rw [pyextList] at h
  by_cases hc : ((cs.dropWhile (fun c => c == '.')).contains '.') = true
  · rw [if_pos hc] at h
    obtain ⟨t, ht⟩ := fromLastDot_shape hc
    have he : e = '.' :: t := by rw [← h, ht]
    subst he
    obtain ⟨pre, hp⟩ := fromLastDot_suffix (cs.dropWhile (fun c => c == '.'))
    rw [ht] at hp
    have hdw : cs = cs.takeWhile (fun c => c == '.') ++ cs.dropWhile (fun c => c == '.') :=
      (List.takeWhile_append_dropWhile _ cs).symm
    cases pre with
    | nil =>
      exfalso
      rw [List.nil_append] at hp
      have hhead := dropWhile_head_not hp
      simp at hhead
    | cons p0 pre2 =>
      have hhead : (p0 == '.') = false :=
        @dropWhile_head_not (fun c => c == '.') cs p0
          (pre2 ++ '.' :: t) (by rw [hp, List.cons_append])
      refine ⟨cs.takeWhile (fun c => c == '.') ++ p0 :: pre2, ?_, ?_⟩
      · rw [List.append_assoc, List.cons_append]
        conv_lhs => rw [hdw]
        rw [hp, List.cons_append]
      · exact ⟨p0, by simp, by simpa using hhead⟩
  · rw [if_neg hc] at h
    exact absurd h.symm hne

/-- Backward direction of the splitext characterisation: a name formed
from a stem holding a non-dot character and a dot extension with a
dot-free tail has exactly that extension. -/
theorem pyextList_backward {stemL t : List Char} (hstem : ∃ c ∈ stemL, c ≠ '.')
    (ht : '.' ∉ t) :
    pyextList (stemL ++ '.' :: t) = '.' :: t := by
  obtain ⟨c0, hc0, hc0ne⟩ := hstem
  have hdwne : stemL.dropWhile (fun c => c == '.') ≠ [] := by
    intro hnil
    have hall := List.dropWhile_eq_nil_iff.mp hnil
    have := hall c0 hc0
    simp at this
    exact hc0ne this
  rw [pyextList]
  rw [dropWhile_append_ne_nil _ hdwne]
  have hcont : ((stemL.dropWhile (fun c => c == '.')) ++ '.' :: t).contains '.' = true := by
    simp
  rw [hcont]
  simp only [if_pos rfl]
  exact fromLastDot_append _ ht

/-- Data of a string append. -/
theorem strApp_data (a b : String) : (a ++ b).data = a.data ++ b.data := by
  cases a
  cases b
  rfl

/-- String-level forward direction of the extension characterisation. -/
theorem pyext_eq_imp (f E : String) (hE : E.data ≠ []) (he : pyext f = E) :
    ∃ stem : String, (∃ c ∈ stem.data, c ≠ '.') ∧ f = stem ++ E := by
  have hL : pyextList f.data = E.data := congrArg String.data he
  obtain ⟨stemL, hcs, hnd⟩ := pyextList_forward hE hL
  refine ⟨⟨stemL⟩, hnd, ?_⟩
  apply String.ext
  rw [strApp_data]
  exact hcs

/-- String-level backward direction of the extension characterisation. -/
theorem pyext_append_ext (stem E : String) (hnd : ∃ c ∈ stem.data, c ≠ '.')
    (hsh : ∃ t, E.data = '.' :: t ∧ '.' ∉ t) :
    pyext (stem ++ E) = E := by
  obtain ⟨t, hEd, ht⟩ := hsh
  apply String.ext
  show pyextList (stem ++ E).data = E.data
  rw [strApp_data, hEd]
  exact pyextList_backward hnd ht

/-- A file name has splitext extension .jpg, .jpeg or .png exactly when
it is a stem containing some non-dot character followed by one of those
three extensions. -/
theorem pyext_mem_iff (f : String) :
    pyext f ∈ ([".jpg", ".jpeg", ".png"] : List String) ↔
    ∃ stem ext : String, (∃ c ∈ stem.data, c ≠ '.') ∧
      ext ∈ ([".jpg", ".jpeg", ".png"] : List String) ∧ f = stem ++ ext := by
  constructor
  · intro h
    simp only [List.mem_cons, List.not_mem_nil, or_false] at h
    rcases h with h | h | h
    · obtain ⟨stem, hnd, hf⟩ := pyext_eq_imp f (".jpg") (by decide) h
      exact ⟨stem, ".jpg", hnd, by simp, hf⟩
    · obtain ⟨stem, hnd, hf⟩ := pyext_eq_imp f (".jpeg") (by decide) h
      exact ⟨stem, ".jpeg", hnd, by simp, hf⟩
    · obtain ⟨stem, hnd, hf⟩ := pyext_eq_imp f (".png") (by decide) h
      exact ⟨stem, ".png", hnd, by simp, hf⟩
  · rintro ⟨stem, ext, hnd, hm, rfl⟩
    simp only [List.mem_cons, List.not_mem_nil, or_false] at hm
    rcases hm with rfl | rfl | rfl
    · simp only [List.mem_cons, List.not_mem_nil, or_false]
      exact Or.inl (pyext_append_ext stem (".jpg") hnd ⟨['j', 'p', 'g'], rfl, by decide⟩)
    · simp only [List.mem_cons, List.not_mem_nil, or_false]
      exact Or.inr (Or.inl
        (pyext_append_ext stem (".jpeg") hnd ⟨['j', 'p', 'e', 'g'], rfl, by decide⟩))
    · simp only [List.mem_cons, List.not_mem_nil, or_false]
      exact Or.inr (Or.inr
        (pyext_append_ext stem (".png") hnd ⟨['p', 'n', 'g'], rfl, by decide⟩))

/-- C7.  When image_filename is a directory, lpr_predict builds one
frame, in listing order, for exactly those entries that are regular
files whose os.path.splitext extension is .jpg, .jpeg or .png —
equivalently, whose name is a stem containing a non-dot character
followed by one of those extensions — and for no other entries; when
image_filename is not a directory it builds exactly one frame for that
path. -/
theorem lpr_frames_characterization :
    (∀ (entries : List DirEntry) (fn : String),
        lprFrames true entries fn =
          (entries.filter lprFrameFilter).map (fun e => fn ++ "/" ++ e.name) ∧
        lprFrames false entries fn = [fn]) ∧
    (∀ e : DirEntry, lprFrameFilter e = true ↔
        (e.isFile = true ∧ ∃ stem ext : String, (∃ c ∈ stem.data, c ≠ '.') ∧
          ext ∈ ([".jpg", ".jpeg", ".png"] : List String) ∧ e.name = stem ++ ext)) := by
  constructor
  · intro entries fn
    exact ⟨rfl, rfl⟩
  · intro e
    rw [lprFrameFilter, Bool.and_eq_true, decide_eq_true_eq]
    exact and_congr_right (fun _ => pyext_mem_iff e.name)

end Capstone
